import Mathlib

/-!
Verification of the fp-eslib core containers (`Option`, `Either`, `Try`), the
lazy-argument helper, the `evalIteration` short-circuit driver and the legacy
`pipeEither` / `asyncPipeEither` pipelines, via a shallow embedding of the
TypeScript source.

Modelling conventions:
  * A JavaScript value of type `A | null | undefined` is embedded as
    `Option A`; `Option.none` stands for both `null` and `undefined`
    (the library treats the two identically everywhere it tests them).
  * A JavaScript `Error` object is embedded as `JSError`, keeping its message.
  * A JavaScript function that may throw is embedded as a function into
    `Except JSError _` (or, for the composition driver, into an outcome type
    that also allows a thrown `Either` container).
-/

namespace FpEslib

/-- A JavaScript `Error` object, modelled by its message string. -/
structure JSError where
  message : String
deriving DecidableEq, Repr

/-- `LazyArg<A> = A | ((_?: unknown) => A)` from `Types.ts`: either a concrete
value or a zero-argument producer of the value. -/
inductive LazyArg (α : Type) where
  | value (a : α)
  | func (f : Unit → α)

/-- `extractLazyArg` from `Types.ts`:
`param instanceof Function ? param() : param`. -/
def extractLazyArg {α : Type} : LazyArg α → α
  | .value a => a
  | .func f => f ()

/-- `extractLazyArg` instrumented with the number of times the supplied
producer is invoked: the `Function` branch performs exactly one call, the
value branch performs none. -/
def extractLazyArgCount {α : Type} : LazyArg α → α × Nat
  | .value a => (a, 0)
  | .func f => (f (), 1)

/-- The option container from `Option.ts`: `OptionNone` (the `None`
singleton) or `OptionSome` holding one value. -/
inductive OptionW (α : Type) where
  | none
  | some (value : α)
deriving DecidableEq, Repr

/-- `isEmpty`: `true` on the `OptionNone` singleton. -/
def OptionW.isEmpty {α : Type} : OptionW α → Bool
  | .none => true
  | .some _ => false

/-- `isDefined`: `true` on an `OptionSome` instance (the spec calls this
discriminant `isPresent`). -/
def OptionW.isDefined {α : Type} : OptionW α → Bool
  | .none => false
  | .some _ => true

/-- `get`: `OptionNone.get` throws `new Error('None.get')`;
`OptionSome.get` returns the stored value. -/
def OptionW.get {α : Type} : OptionW α → Except JSError α
  | .none => Except.error (JSError.mk "None.get")
  | .some v => Except.ok v

/-- The error thrown by the unguarded accessor on an empty container:
the code realises the spec's `EmptyValueError` as `new Error('None.get')`. -/
def EmptyValueError : JSError := JSError.mk "None.get"

/-- `Maybe` from `Option.ts`: `val === null || val === undefined ? None :
new OptionSome(val)`. -/
def Maybe {α : Type} (val : Option α) : OptionW α :=
  match val with
  | Option.none => OptionW.none
  | Option.some v => OptionW.some v

/-- `Some` from `Option.ts`: throws `new Error('Some(null | undefined)')` on a
null/undefined input, otherwise builds an `OptionSome`. -/
def Some {α : Type} (val : Option α) : Except JSError (OptionW α) :=
  match val with
  | Option.none => Except.error (JSError.mk "Some(null | undefined)")
  | Option.some v => Except.ok (OptionW.some v)

/-- `OptionW.map` from `Option.ts`:
`this.isEmpty ? None : Maybe(fn(this.get()))`; the result is re-wrapped
through the absence-aware constructor `Maybe`. The function argument has the
source type `(a: A) => B | null | undefined`, i.e. `α → Option β`. -/
def OptionW.map {α β : Type} : OptionW α → (α → Option β) → OptionW β
  | .none, _ => OptionW.none
  | .some v, fn => Maybe (fn v)

/-- `OptionW.getOrElse` from `Option.ts`:
`this.isEmpty ? extractLazyArg(alt) : this.get()`. -/
def OptionW.getOrElse {α : Type} : OptionW α → LazyArg α → α
  | .none, alt => extractLazyArg alt
  | .some v, _ => v

/-- `OptionW.getOrElse` instrumented with the number of times the lazy
default's producer is invoked. -/
def OptionW.getOrElseCount {α : Type} : OptionW α → LazyArg α → α × Nat
  | .none, alt => extractLazyArgCount alt
  | .some v, _ => (v, 0)

/-- The disjoint-result container from `Either.ts`: `EitherLeft` or
`EitherRight`, each owning one value. -/
inductive Either (α β : Type) where
  | left (value : α)
  | right (value : β)
deriving DecidableEq, Repr

/-- `isLeft` discriminant of `Either`. -/
def Either.isLeft {α β : Type} : Either α β → Bool
  | .left _ => true
  | .right _ => false

/-- `isRight` discriminant of `Either`. -/
def Either.isRight {α β : Type} : Either α β → Bool
  | .left _ => false
  | .right _ => true

/-- The `value` field of an `Either` (`A | B` in the source), embedded as a
sum. -/
def Either.value {α β : Type} : Either α β → α ⊕ β
  | .left a => Sum.inl a
  | .right b => Sum.inr b

/-- `OptionW.toRight` from `Option.ts`:
`this.isEmpty ? Left(extractLazyArg(left)) : Right(this.get())`. -/
def OptionW.toRight {α χ : Type} : OptionW α → LazyArg χ → Either χ α
  | .none, l => Either.left (extractLazyArg l)
  | .some v, _ => Either.right v

/-- `OptionW.toRight` instrumented with the number of times the lazy left
value's producer is invoked. -/
def OptionW.toRightCount {α χ : Type} : OptionW α → LazyArg χ → Either χ α × Nat
  | .none, l =>
    match extractLazyArgCount l with
    | (x, n) => (Either.left x, n)
  | .some v, _ => (Either.right v, 0)

/-- `Either.toOption` from `Either.ts`:
`this.isRight ? Some(this.value as B) : None`. Since `Some` throws on a
null/undefined value and a `Right` may hold one (its factory accepts
`B | null | undefined`), the right payload is embedded nullable and the result
is `Except`-valued. -/
def Either.toOption {α β : Type} : Either α (Option β) → Except JSError (OptionW β)
  | .right v => Some v
  | .left _ => Except.ok OptionW.none

/-- One result of the iterator protocol: the `{ value, done }` record
returned by `next()`. -/
structure IterResult (β : Type) where
  value : β
  done : Bool
deriving DecidableEq, Repr

/-- One step of `Either[Symbol.iterator]().next()` from `Either.ts`. The
iterator closes over a mutable `isDone` flag (initially `false`), passed and
returned here explicitly. `next()` throws the container itself when the
container is not a `Right`; otherwise it yields the payload with
`done: false` on the first call (setting the flag) and reports
`done: true` afterwards. -/
def Either.iterNext {α β : Type} (e : Either α β) (isDone : Bool) :
    Except (Either α β) (IterResult β × Bool) :=
  match e with
  | .left a => Except.error (Either.left a)
  | .right v =>
    if isDone then Except.ok (IterResult.mk v true, true)
    else Except.ok (IterResult.mk v false, true)

/-- The abnormal-exit signal a composition block can raise: either an
`Either` container (thrown by iterating a `Left`) or any other value, such as
a plain `Error` thrown by a buggy step. -/
inductive ThrownVal (α β : Type) where
  | eitherInst (e : Either α (Option β))
  | other (err : JSError)
deriving DecidableEq, Repr

/-- The observable outcome of invoking a composition block `cb`: it either
completes normally with a value of type `B | undefined` (`Option β`, with
`none` for `undefined`), or exits abnormally with a thrown signal. -/
inductive BlockOutcome (α β : Type) where
  | normal (v : Option β)
  | thrown (ex : ThrownVal α β)
deriving DecidableEq, Repr

/-- The value `evalIteration` hands back to its caller. Its declared return
type is `Either<A, B>` but the `catch` branch returns the caught value
unchanged, so the actual result is either a genuine `Either` container or the
raw non-`Either` thrown value. -/
inductive EvalResult (α β : Type) where
  | container (e : Either α (Option β))
  | nonContainer (err : JSError)
deriving DecidableEq, Repr

/-- Whether an `evalIteration` result is a `Left` container
(an `Either` instance whose `isLeft` is `true`). -/
def EvalResult.isLeftContainer {α β : Type} : EvalResult α β → Bool
  | .container (Either.left _) => true
  | _ => false

/-- `evalIteration` from `Either.ts`:
`try { return Right(cb()) } catch (ex) { return ex; }`.
A normal completion is wrapped in `Right`; a thrown value is returned exactly
as caught — an `Either` instance verbatim, any other thrown value raw and
unwrapped. -/
def evalIteration {α β : Type} : BlockOutcome α β → EvalResult α β
  | .normal v => EvalResult.container (Either.right v)
  | .thrown (.eitherInst e) => EvalResult.container e
  | .thrown (.other err) => EvalResult.nonContainer err

/-- A step of `pipeEither` from `PipeEither.ts`: receives the accumulated
values of the prior steps and returns an `Either`. -/
abbrev StepFn (α β : Type) := List β → Either α β

/-- The do-while loop of `pipeEither`, structured as recursion on the list of
remaining steps: run the current entry on the accumulated `values`; a `Left`
sets `foundError` and is returned as `current`; a `Right` pushes its payload
onto `values` and the loop continues while entries remain. -/
def pipeEitherGo {α β : Type} : StepFn α β → List (StepFn α β) → List β → Either α β
  | entry, [], values =>
    match entry values with
    | .left a => Either.left a
    | .right b => Either.right b
  | entry, next :: more, values =>
    match entry values with
    | .left a => Either.left a
    | .right b => pipeEitherGo next more (values ++ [b])

/-- `pipeEither` from `PipeEither.ts` on a non-empty list of steps (the
source indexes `items[0]` unconditionally, so at least one step is
required). -/
def pipeEither {α β : Type} (first : StepFn α β) (rest : List (StepFn α β)) : Either α β :=
  pipeEitherGo first rest []

/-- `pipeEitherGo` instrumented with the trace of inputs passed to each
invoked step, in invocation order. -/
def pipeEitherTraceGo {α β : Type} :
    StepFn α β → List (StepFn α β) → List β → Either α β × List (List β)
  | entry, [], values =>
    match entry values with
    | .left a => (Either.left a, [values])
    | .right b => (Either.right b, [values])
  | entry, next :: more, values =>
    match entry values with
    | .left a => (Either.left a, [values])
    | .right b =>
      ((pipeEitherTraceGo next more (values ++ [b])).1,
        values :: (pipeEitherTraceGo next more (values ++ [b])).2)

/-- A value that may or may not be a `Promise`: the result of an
`asyncPipeEither` step before the `instanceof Promise` test. -/
inductive PromiseOr (γ : Type) where
  | now (g : γ)
  | promise (g : γ)

/-- The `instanceof Promise` branch of `AsyncPipeEither.ts`: await the value
when it is a promise, use it directly otherwise. -/
def PromiseOr.resolve {γ : Type} : PromiseOr γ → γ
  | .now g => g
  | .promise g => g

/-- A step of `asyncPipeEither`: returns an `Either` or a promise of one. -/
abbrev AsyncStepFn (α β : Type) := List β → PromiseOr (Either α β)

/-- The do-while loop of `asyncPipeEither` from `AsyncPipeEither.ts`:
identical to `pipeEitherGo` except that each step's result is awaited when it
is a promise before being examined. -/
def asyncPipeEitherGo {α β : Type} :
    AsyncStepFn α β → List (AsyncStepFn α β) → List β → Either α β
  | entry, [], values =>
    match PromiseOr.resolve (entry values) with
    | .left a => Either.left a
    | .right b => Either.right b
  | entry, next :: more, values =>
    match PromiseOr.resolve (entry values) with
    | .left a => Either.left a
    | .right b => asyncPipeEitherGo next more (values ++ [b])

/-- `asyncPipeEither` from `AsyncPipeEither.ts` on a non-empty list of
steps. -/
def asyncPipeEither {α β : Type} (first : AsyncStepFn α β)
    (rest : List (AsyncStepFn α β)) : Either α β :=
  asyncPipeEitherGo first rest []

/-- The exception-capturing container from `Try.ts`: `TryFailure` owning the
causing error or `TrySuccess` owning the computed value. -/
inductive TryW (α : Type) where
  | failure (exception : JSError)
  | success (value : α)
deriving DecidableEq, Repr

/-- `TryW.flatMap` from `Try.ts`. `TryFailure.flatMap` returns `this`;
`TrySuccess.flatMap` runs `try { return f(this.value) } catch (err)
{ return Failure(err) }` — the argument may throw, so it is embedded as an
`Except`-returning function. -/
def TryW.flatMap {α β : Type} : TryW α → (α → Except JSError (TryW β)) → TryW β
  | .failure e, _ => TryW.failure e
  | .success v, f =>
    match f v with
    | Except.ok t => t
    | Except.error err => TryW.failure err

/-- `TryW.fold` from `Try.ts`. `TryFailure.fold` applies the failure handler
to the stored exception; `TrySuccess.fold` runs
`try { return fb(this.value) } catch (err) { return fa(err) }`. -/
def TryW.fold {α γ : Type} : TryW α → (JSError → γ) → (α → Except JSError γ) → γ
  | .failure e, fa, _ => fa e
  | .success v, fa, fb =>
    match fb v with
    | Except.ok u => u
    | Except.error err => fa err

/-- C1: the claim says a block throwing a plain (non-`Either`) error makes
`evalIteration` return a `Left` wrapping that error. The code instead returns
the caught value itself, unwrapped: at the concrete block that throws
`Error("boom")`, `evalIteration` yields the raw error, which is not a
container and in particular not a `Left` (its `isLeft` is not `true`). -/
theorem evalIteration_raw_error_returned_unwrapped :
    evalIteration (BlockOutcome.thrown (ThrownVal.other (JSError.mk "boom")) :
        BlockOutcome Nat Nat)
      = EvalResult.nonContainer (JSError.mk "boom")
    ∧ EvalResult.isLeftContainer
        (evalIteration (BlockOutcome.thrown (ThrownVal.other (JSError.mk "boom")) :
          BlockOutcome Nat Nat)) = false :=
  ⟨rfl, rfl⟩

/-- C2: a block that completes normally with value `v` makes `evalIteration`
return `Right(v)`; a block that throws an `Either` instance `e` makes it
return that exact instance unchanged; a block that returns no value
(`undefined`) yields `Right(undefined)`. -/
theorem evalIteration_contract (α β : Type) :
    (∀ v : Option β,
      evalIteration (BlockOutcome.normal v : BlockOutcome α β)
        = EvalResult.container (Either.right v))
    ∧ (∀ e : Either α (Option β),
      evalIteration (BlockOutcome.thrown (ThrownVal.eitherInst e))
        = EvalResult.container e)
    ∧ evalIteration (BlockOutcome.normal Option.none : BlockOutcome α β)
        = EvalResult.container (Either.right Option.none) :=
  ⟨fun _ => rfl, fun _ => rfl, rfl⟩

/-- C3: the iterator of a `Right(v)` yields `v` exactly once — the first
`next()` (flag initially `false`) returns `{ value: v, done: false }` and
sets the flag, every later `next()` reports `done: true` — while the iterator
of a `Left` throws the `Either` container itself (not its payload) on any
call to `next()`, yielding nothing. -/
theorem either_iterator_contract (α β : Type) :
    (∀ v : β,
      Either.iterNext (Either.right v : Either α β) false
        = Except.ok (IterResult.mk v false, true))
    ∧ (∀ v : β,
      Either.iterNext (Either.right v : Either α β) true
        = Except.ok (IterResult.mk v true, true))
    ∧ (∀ (a : α) (isDone : Bool),
      Either.iterNext (Either.left a : Either α β) isDone
        = Except.error (Either.left a)) :=
  ⟨fun _ => rfl, fun _ => rfl, fun _ _ => rfl⟩

/-- C4 counterexample: with `x = 1`, `f = _ => null` and `g = _ => 2` (a
JavaScript function defined on every input, null included, hence embedded on
the nullable domain), `Maybe(x).map(f).map(g)` is `Empty` — the first `map`
re-wraps `null` through `Maybe` — while `Maybe(x).map(v => g(f(v)))` is
`Maybe(g(null)) = Present(2)`. The two sides differ for a present `x`. -/
theorem maybe_map_composition_fails :
    ((Maybe (Option.some 1)).map (fun _ : Nat => (Option.none : Option Nat))).map
        (fun b : Nat => (fun _ : Option Nat => (Option.some 2 : Option Nat)) (Option.some b))
      ≠ (Maybe (Option.some 1)).map
        (fun v : Nat =>
          (fun _ : Option Nat => (Option.some 2 : Option Nat))
            ((fun _ : Nat => (Option.none : Option Nat)) v)) := by
  decide

/-- C4 amended: `Maybe(x).map(f).map(g)` equals `Maybe(x).map(v => g(f(v)))`
when `x` is absent (both sides are `Empty`, whatever the composite does) and
when `x` is present with `f` mapping its payload to a present value `w` (both
sides are `Maybe(g(w))`); when `f` maps the payload to null/absent the left
side collapses to `Empty` while the right side is `Maybe` of `g` applied to
that null, which need not be `Empty`. -/
theorem maybe_map_composition_amended (α β γ : Type) :
    (∀ (f : α → Option β) (g : β → Option γ) (h : α → Option γ),
      ((Maybe (Option.none : Option α)).map f).map g = OptionW.none
      ∧ (Maybe (Option.none : Option α)).map h = OptionW.none)
    ∧ (∀ (x : α) (f : α → Option β) (g : β → Option γ) (w : β),
      f x = Option.some w →
      ((Maybe (Option.some x)).map f).map g
        = (Maybe (Option.some x)).map (fun u => Option.bind (f u) g)) := by
  refine ⟨fun f g h => ⟨rfl, rfl⟩, fun x f g w hf => ?_⟩
  show (Maybe (f x)).map g = Maybe (Option.bind (f x) g)
  rw [hf]
  rfl

/-- C4 witness: the amended law applied at `x = 1`, `f = _ => 5`,
`g = b => b + 1`, where `f` maps the payload to the present value `5`. -/
theorem maybe_map_composition_amended_witness :
    ((fun _ : Nat => (Option.some 5 : Option Nat)) 1 = Option.some 5)
    ∧ ((Maybe (Option.some 1)).map (fun _ : Nat => (Option.some 5 : Option Nat))).map
        (fun b : Nat => (Option.some (b + 1) : Option Nat))
      = (Maybe (Option.some 1)).map
        (fun u => Option.bind ((fun _ : Nat => (Option.some 5 : Option Nat)) u)
          (fun b => (Option.some (b + 1) : Option Nat))) :=
  ⟨rfl,
    (maybe_map_composition_amended Nat Nat Nat).2 1
      (fun _ => Option.some 5) (fun b => Option.some (b + 1)) 5 rfl⟩

/-- C5 counterexample: `Right(undefined).toOption()` does not round-trip —
`toOption` calls `Some(this.value)`, and `Some` throws
`Error('Some(null | undefined)')` on an undefined payload, so no `Option` is
produced and `get()` can never return the payload. The spec's universal
round trip fails at `v = undefined`. -/
theorem either_toOption_undefined_throws :
    Either.toOption (Either.right (Option.none : Option Nat) : Either Nat (Option Nat))
      = Except.error (JSError.mk "Some(null | undefined)") :=
  rfl

/-- C5 amended: for every non-null, defined `v`,
`Right(v).toOption().get() === v`; for every `e`,
`Left(e).toOption().isEmpty === true`; and
`Right(v).toOption().toRight(fallback)` is `Right(v)` (its value is `v`) with
the lazy fallback's producer invoked zero times. For `v` null or undefined,
`Right(v).toOption()` instead throws (see the counterexample). -/
theorem either_toOption_round_trip_amended (α β χ : Type) :
    (∀ v : β,
      Either.toOption (Either.right (Option.some v) : Either α (Option β))
          = Except.ok (OptionW.some v)
      ∧ (OptionW.some v).get = Except.ok v)
    ∧ (∀ a : α,
      Either.toOption (Either.left a : Either α (Option β)) = Except.ok OptionW.none
      ∧ (OptionW.none : OptionW β).isEmpty = true)
    ∧ (∀ (v : β) (fallback : LazyArg χ),
      (OptionW.some v).toRightCount fallback = (Either.right v, 0)
      ∧ (Either.right v : Either χ β).value = Sum.inr v) :=
  ⟨fun _ => ⟨rfl, rfl⟩, fun _ => ⟨rfl, rfl⟩, fun _ _ => ⟨rfl, rfl⟩⟩

/-- The traced pipeline computes the same result as the untraced one. -/
lemma pipeEitherTraceGo_fst {α β : Type} :
    ∀ (rest : List (StepFn α β)) (entry : StepFn α β) (values : List β),
      (pipeEitherTraceGo entry rest values).1 = pipeEitherGo entry rest values := by
  intro rest
  induction rest with
  | nil =>
    intro entry values
    cases h : entry values <;> simp [pipeEitherTraceGo, pipeEitherGo, h]
  | cons next more ih =>
    intro entry values
    cases h : entry values with
    | left a => simp [pipeEitherTraceGo, pipeEitherGo, h]
    | right b =>
      simp [pipeEitherTraceGo, pipeEitherGo, h]
      exact ih next (values ++ [b])

/-- The async pipeline is the sync pipeline applied to the awaited steps. -/
lemma asyncPipeEitherGo_eq_sync {α β : Type} :
    ∀ (rest : List (AsyncStepFn α β)) (entry : AsyncStepFn α β) (values : List β),
      asyncPipeEitherGo entry rest values
        = pipeEitherGo (fun vs => PromiseOr.resolve (entry vs))
            (rest.map (fun g => fun vs => PromiseOr.resolve (g vs))) values := by
  intro rest
  induction rest with
  | nil =>
    intro entry values
    cases h : PromiseOr.resolve (entry values) <;>
      simp [asyncPipeEitherGo, pipeEitherGo, h]
  | cons next more ih =>
    intro entry values
    cases h : PromiseOr.resolve (entry values) with
    | left a => simp [asyncPipeEitherGo, pipeEitherGo, h]
    | right b =>
      simp [asyncPipeEitherGo, pipeEitherGo, h]
      exact ih next (values ++ [b])

/-- C6: the pipelines run their steps strictly in order, each step receiving
the list of all prior steps' `Right` payloads in order (`values ++ [b]` for
the following step). A step returning a `Left` ends the run with exactly that
`Left`, and the invocation trace stops at that step — later steps are never
invoked, whatever they are. When no `Left` occurs the final step's `Right` is
the result. `asyncPipeEither` runs the identical loop on the awaited step
results, so it has the same ordering and short-circuit semantics. -/
theorem pipeEither_contract (α β : Type) :
    (∀ (values : List β) (f : StepFn α β) (a : α) (rest : List (StepFn α β)),
      f values = Either.left a →
      pipeEitherTraceGo f rest values = (Either.left a, [values]))
    ∧ (∀ (values : List β) (f g : StepFn α β) (b : β) (rest : List (StepFn α β)),
      f values = Either.right b →
      pipeEitherTraceGo f (g :: rest) values
        = ((pipeEitherTraceGo g rest (values ++ [b])).1,
            values :: (pipeEitherTraceGo g rest (values ++ [b])).2))
    ∧ (∀ (values : List β) (f : StepFn α β) (b : β),
      f values = Either.right b →
      pipeEitherTraceGo f [] values = (Either.right b, [values]))
    ∧ (∀ (f : StepFn α β) (rest : List (StepFn α β)),
      (pipeEitherTraceGo f rest []).1 = pipeEither f rest)
    ∧ (∀ (f : AsyncStepFn α β) (rest : List (AsyncStepFn α β)),
      asyncPipeEither f rest
        = pipeEither (fun vs => PromiseOr.resolve (f vs))
            (rest.map (fun g => fun vs => PromiseOr.resolve (g vs)))) := by
  refine ⟨?_, ?_, ?_, ?_, ?_⟩
  · intro values f a rest hf
    cases rest <;> simp [pipeEitherTraceGo, hf]
  · intro values f g b rest hf
    simp [pipeEitherTraceGo, hf]
  · intro values f b hf
    simp [pipeEitherTraceGo, hf]
  · intro f rest
    exact pipeEitherTraceGo_fst rest f []
  · intro f rest
    exact asyncPipeEitherGo_eq_sync rest f []

/-- C6 witness: a first step that returns `Left 7` stops the pipeline — the
result is that `Left` and the trace shows the single invocation on the empty
tuple; the second step is never invoked. -/
theorem pipeEither_contract_witness :
    ((fun _ : List Nat => (Either.left 7 : Either Nat Nat)) [] = Either.left 7)
    ∧ pipeEitherTraceGo (fun _ : List Nat => (Either.left 7 : Either Nat Nat))
        [fun _ => Either.right 1] []
      = (Either.left 7, [[]]) :=
  ⟨rfl,
    (pipeEither_contract Nat Nat).1 [] (fun _ => Either.left 7) 7
      [fun _ => Either.right 1] rfl⟩

/-- C7: `Maybe` maps a null/undefined input to the `Empty` option (`isEmpty`
is `true`) and `Some` rejects such an input as a programmer error (it throws
`Error('Some(null | undefined)')`); on any other input `x`, `Maybe(x)` is
present (its presence discriminant, `isDefined` in the code, is `true`) and
`Maybe(x).get()` returns `x`. -/
theorem maybe_some_contract (α : Type) :
    (Maybe (Option.none : Option α) = OptionW.none)
    ∧ ((Maybe (Option.none : Option α)).isEmpty = true)
    ∧ (Some (Option.none : Option α)
        = Except.error (JSError.mk "Some(null | undefined)"))
    ∧ (∀ v : α,
      (Maybe (Option.some v)).isDefined = true
      ∧ (Maybe (Option.some v)).get = Except.ok v) :=
  ⟨rfl, rfl, rfl, fun _ => ⟨rfl, rfl⟩⟩

/-- C8: `get()` on the `Empty` option fails with the unsafe-access fault the
spec names `EmptyValueError` — realised in the code as
`new Error('None.get')` — while `get()` on a present option returns the
payload without failing. -/
theorem none_get_empty_value_error (α : Type) :
    ((OptionW.none : OptionW α).get = Except.error EmptyValueError)
    ∧ (EmptyValueError = JSError.mk "None.get")
    ∧ (∀ v : α, (OptionW.some v).get = Except.ok v) :=
  ⟨rfl, rfl, fun _ => rfl⟩

/-- C9: a lazy argument given as a zero-argument producer resolves by
invoking the producer exactly once and returning its result; a concrete
(non-function) value resolves to itself with zero invocations; and when the
argument is not needed — `getOrElse` on a present option — the producer is
invoked zero times. The instrumented count agrees with `extractLazyArg`. -/
theorem lazy_arg_contract (α : Type) :
    (∀ f : Unit → α, extractLazyArgCount (LazyArg.func f) = (f (), 1))
    ∧ (∀ a : α, extractLazyArgCount (LazyArg.value a) = (a, 0))
    ∧ (∀ l : LazyArg α, (extractLazyArgCount l).1 = extractLazyArg l)
    ∧ (∀ (v : α) (alt : LazyArg α), (OptionW.some v).getOrElseCount alt = (v, 0)) := by
  refine ⟨fun _ => rfl, fun _ => rfl, fun l => ?_, fun _ _ => rfl⟩
  cases l <;> rfl

/-- C10: on a `Success(v)`, a `flatMap` argument that throws `e` produces
`Failure(e)` rather than letting the exception propagate, and a success
handler passed to `fold` that throws `e` makes `fold` apply the failure
handler to `e` and return its result. -/
theorem try_success_catches (α β γ : Type) :
    (∀ (v : α) (f : α → Except JSError (TryW β)) (e : JSError),
      f v = Except.error e → (TryW.success v).flatMap f = TryW.failure e)
    ∧ (∀ (v : α) (fa : JSError → γ) (fb : α → Except JSError γ) (e : JSError),
      fb v = Except.error e → (TryW.success v).fold fa fb = fa e) := by
  constructor
  · intro v f e hf
    simp [TryW.flatMap, hf]
  · intro v fa fb e hf
    simp [TryW.fold, hf]

/-- C10 witness: `Success(0).flatMap` of a function that throws
`Error("bad")` is `Failure(Error("bad"))`, and `Success(0).fold` with a
success handler that throws `Error("bad")` applies the failure handler
(here, the message accessor) to that error. -/
theorem try_success_catches_witness :
    ((fun _ : Nat => (Except.error (JSError.mk "bad") : Except JSError (TryW Nat))) 0
        = Except.error (JSError.mk "bad"))
    ∧ (TryW.success 0).flatMap
        (fun _ : Nat => (Except.error (JSError.mk "bad") : Except JSError (TryW Nat)))
      = TryW.failure (JSError.mk "bad")
    ∧ (TryW.success 0).fold JSError.message
        (fun _ : Nat => (Except.error (JSError.mk "bad") : Except JSError String))
      = "bad" :=
  ⟨rfl,
    (try_success_catches Nat Nat String).1 0
      (fun _ => Except.error (JSError.mk "bad")) (JSError.mk "bad") rfl,
    (try_success_catches Nat Nat String).2 0 JSError.message
      (fun _ => Except.error (JSError.mk "bad")) (JSError.mk "bad") rfl⟩

end FpEslib
